import Mathlib

/-!
# go-commit: the commit-message prompt (`main.go`)

A shallow embedding of `main.go`: the package-level variables holding the draft,
the `Model` with its `Update` and `View` methods, and the form schema built by
`NewModel`.  The three terminal libraries the program calls (bubbletea, huh and
lipgloss) are not part of the repository.  Their box-model getters and setters,
which the layout arithmetic depends on, are modelled concretely; their rendering
and form-handling functions are taken as parameters (`Lib`), so every theorem
holds whatever those functions compute.
-/

namespace GoCommit

/-! ## Go integers and strings -/

/-- Go `int` on a 64-bit target: the representative of `x` in `[-2^63, 2^63)`. -/
def wrapInt (x : Int) : Int :=
  (x + 9223372036854775808) % 18446744073709551616 - 9223372036854775808

/-- Go `a - b` on `int`. -/
def subInt (a b : Int) : Int := wrapInt (a - b)

/-- The values a Go `int` can hold. -/
def IsInt (x : Int) : Prop := -9223372036854775808 ≤ x ∧ x ≤ 9223372036854775807

instance (x : Int) : Decidable (IsInt x) :=
  inferInstanceAs (Decidable (-9223372036854775808 ≤ x ∧ x ≤ 9223372036854775807))

/-- Go `strings.TrimSuffix(s, suffix)`. -/
def TrimSuffix (s suffix : String) : String :=
  if suffix.data.isSuffixOf s.data then String.mk (s.data.take (s.data.length - suffix.data.length))
  else s

/-! ## The package-level variables -/

/-- The five package-level `var`s of `main.go` (lines 14-20). -/
structure Vars where
  commitType : String
  scope : String
  workItemID : String
  title : String
  description : String
deriving DecidableEq

/-- The names of the package-level variables, for the `Value(&x)` bindings. -/
inductive VarRef where
  | commitType | scope | workItemID | title | description
deriving DecidableEq

/-- The constant `maxWidth` (line 22). -/
def maxWidth : Int := 120

/-! ## lipgloss: colours and the box model of `Style` -/

/-- A lipgloss colour (`TerminalColor`): `AdaptiveColor{Light, Dark}` or `Color(code)`. -/
inductive TerminalColor where
  | AdaptiveColor (Light Dark : String)
  | Color (code : String)
deriving DecidableEq

/-- The package-level colour `red` (line 25). -/
def red : TerminalColor := .AdaptiveColor "#FE5F86" "#FE5F86"
/-- The package-level colour `indigo` (line 26). -/
def indigo : TerminalColor := .AdaptiveColor "#5A56E0" "#7571F9"
/-- The package-level colour `green` (line 27). -/
def green : TerminalColor := .AdaptiveColor "#02BA84" "#02BF87"

/-- The cell widths of the four edges of a lipgloss `Border`. -/
structure Border where
  top : Int
  right : Int
  bottom : Int
  left : Int
deriving DecidableEq

/-- The edges of `lipgloss.RoundedBorder()` are one cell wide each. -/
def RoundedBorder : Border := ⟨1, 1, 1, 1⟩

/-- The properties of a `lipgloss.Style` the program sets or reads. -/
structure Style where
  bold : Bool
  foreground : Option TerminalColor
  borderForeground : Option TerminalColor
  width : Int
  height : Int
  paddingTop : Int
  paddingRight : Int
  paddingBottom : Int
  paddingLeft : Int
  marginTop : Int
  marginRight : Int
  marginBottom : Int
  marginLeft : Int
  borderStyle : Border
  borderTop : Bool
  borderRight : Bool
  borderBottom : Bool
  borderLeft : Bool
deriving DecidableEq

/-- The style `lg.NewStyle()` returns: nothing set. -/
def NewStyle : Style :=
  { bold := false, foreground := none, borderForeground := none, width := 0, height := 0,
    paddingTop := 0, paddingRight := 0, paddingBottom := 0, paddingLeft := 0,
    marginTop := 0, marginRight := 0, marginBottom := 0, marginLeft := 0,
    borderStyle := ⟨0, 0, 0, 0⟩,
    borderTop := false, borderRight := false, borderBottom := false, borderLeft := false }

/-- The shorthand of lipgloss for one to four side values, as (top, right, bottom, left). -/
def whichSidesInt : List Int → Option (Int × Int × Int × Int)
  | [a] => some (a, a, a, a)
  | [a, b] => some (a, b, a, b)
  | [a, b, c] => some (a, b, c, b)
  | [a, b, c, d] => some (a, b, c, d)
  | _ => none

namespace Style

/-- Setter `Bold`. -/
def Bold (s : Style) (v : Bool) : Style := { s with bold := v }
/-- Setter `Foreground`. -/
def Foreground (s : Style) (c : TerminalColor) : Style := { s with foreground := some c }
/-- Setter `BorderForeground`. -/
def BorderForeground (s : Style) (c : TerminalColor) : Style := { s with borderForeground := some c }
/-- Setter `Width`; lipgloss stores integer properties as `max(0, i)`. -/
def Width (s : Style) (i : Int) : Style := { s with width := max 0 i }
/-- Setter `Height`; lipgloss stores integer properties as `max(0, i)`. -/
def Height (s : Style) (i : Int) : Style := { s with height := max 0 i }
/-- Setter `PaddingLeft`. -/
def PaddingLeft (s : Style) (i : Int) : Style := { s with paddingLeft := max 0 i }
/-- Setter `MarginTop`. -/
def MarginTop (s : Style) (i : Int) : Style := { s with marginTop := max 0 i }
/-- Setter `MarginLeft`; a negative argument is stored as 0. -/
def MarginLeft (s : Style) (i : Int) : Style := { s with marginLeft := max 0 i }

/-- Setter `Padding(i...)`. -/
def Padding (s : Style) (i : List Int) : Style :=
  match whichSidesInt i with
  | some (t, r, b, l) =>
    { s with paddingTop := max 0 t, paddingRight := max 0 r,
             paddingBottom := max 0 b, paddingLeft := max 0 l }
  | none => s

/-- Setter `Margin(i...)`. -/
def Margin (s : Style) (i : List Int) : Style :=
  match whichSidesInt i with
  | some (t, r, b, l) =>
    { s with marginTop := max 0 t, marginRight := max 0 r,
             marginBottom := max 0 b, marginLeft := max 0 l }
  | none => s

/-- Setter `Border(b)` with no side arguments: all four sides are shown. -/
def Border (s : Style) (b : GoCommit.Border) : Style :=
  { s with borderStyle := b, borderTop := true, borderRight := true,
           borderBottom := true, borderLeft := true }

/-- Getter `GetMarginLeft`. -/
def GetMarginLeft (s : Style) : Int := s.marginLeft
/-- Getter `GetMarginRight`. -/
def GetMarginRight (s : Style) : Int := s.marginRight
/-- Getter `GetHorizontalMargins`. -/
def GetHorizontalMargins (s : Style) : Int := s.marginLeft + s.marginRight
/-- Getter `GetHorizontalPadding`. -/
def GetHorizontalPadding (s : Style) : Int := s.paddingLeft + s.paddingRight
/-- Getter `GetBorderLeftSize`. -/
def GetBorderLeftSize (s : Style) : Int := if s.borderLeft then s.borderStyle.left else 0
/-- Getter `GetBorderRightSize`. -/
def GetBorderRightSize (s : Style) : Int := if s.borderRight then s.borderStyle.right else 0
/-- Getter `GetHorizontalBorderSize`. -/
def GetHorizontalBorderSize (s : Style) : Int := s.GetBorderLeftSize + s.GetBorderRightSize
/-- Getter `GetHorizontalFrameSize`: margins, padding and border, left plus right. -/
def GetHorizontalFrameSize (s : Style) : Int :=
  s.GetHorizontalMargins + s.GetHorizontalPadding + s.GetHorizontalBorderSize

end Style

/-- The struct `Styles` (lines 30-38). -/
structure Styles where
  Base : Style
  HeaderText : Style
  Status : Style
  StatusHeader : Style
  Highlight : Style
  ErrorHeaderText : Style
  Help : Style
deriving DecidableEq

/-- The function `NewStyles` (lines 40-63). -/
def NewStyles : Styles :=
  let Base := NewStyle.Padding [1, 4, 0, 1]
  let HeaderText := ((NewStyle.Foreground indigo).Bold true).Padding [0, 1, 0, 2]
  let Status := (((NewStyle.Border RoundedBorder).BorderForeground indigo).PaddingLeft 1).MarginTop 1
  let StatusHeader := (NewStyle.Foreground green).Bold true
  let Highlight := NewStyle.Foreground (.Color "212")
  let ErrorHeaderText := HeaderText.Foreground red
  let Help := NewStyle.Foreground (.Color "240")
  { Base := Base, HeaderText := HeaderText, Status := Status, StatusHeader := StatusHeader,
    Highlight := Highlight, ErrorHeaderText := ErrorHeaderText, Help := Help }

/-! ## huh: the form -/

/-- One `huh.NewOption(key, value)`. -/
structure SelectOption where
  Key : String
  Value : String
deriving DecidableEq

/-- The fields of the form, with the settings `NewModel` gives them. -/
inductive Field where
  | Select (Title : String) (Options : List SelectOption) (Value : VarRef)
  | Input (Title : String) (Value : VarRef)
  | Text (Title : String) (CharLimit : Int) (Value : VarRef)
  | Confirm (Key Title : String) (Validate : Bool → Option String)
      (Affirmative Negative : String)

/-- A `huh.Group`: the fields shown together. -/
structure Group where
  fields : List Field

/-- The type `huh.FormState`. -/
inductive FormState where
  | StateNormal | StateCompleted | StateAborted
deriving DecidableEq

/-- A `huh.Form`: the schema and options `NewModel` sets, the exported `State`, and the
run-time state `rt` the library keeps for itself (focus, cursors, viewports). -/
structure Form (σ : Type) where
  groups : List Group
  width : Int
  showHelp : Bool
  showErrors : Bool
  State : FormState
  rt : σ

/-! ## bubbletea: messages and commands -/

/-- A `tea.Msg`: a resize, a key press (carrying what `msg.String()` returns), or any
other message, identified by a tag. -/
inductive Msg where
  | WindowSizeMsg (Width Height : Int)
  | KeyMsg (str : String)
  | other (tag : Nat)
deriving DecidableEq

/-- A `tea.Cmd`: `tea.Interrupt`, `tea.Quit`, `tea.Batch(cmds...)`, or a command issued by
the form, identified by a tag. -/
inductive Cmd where
  | Interrupt
  | Quit
  | Batch (cmds : List Cmd)
  | other (tag : Nat)

/-- A `tea.Model` returned by the form: a `*huh.Form` or something else. -/
inductive TeaModel (σ : Type) where
  | huhForm (f : Form σ)
  | other

/-- The library functions `Update` and `View` call, as parameters. -/
structure Lib (σ : Type) where
  /-- Method `Style.Render(str)`. -/
  Render : Style → String → String
  /-- Function `lipgloss.Width(str)`. -/
  Width : String → Int
  /-- Function `lipgloss.Height(str)`. -/
  Height : String → Int
  /-- Function `lipgloss.JoinHorizontal(lipgloss.Top, a, b)`. -/
  JoinHorizontal : String → String → String
  /-- Method `(*huh.Form).View()`; the form shows the variables its fields are bound to. -/
  formView : Form σ → Vars → String
  /-- Method `(*huh.Form).Update(msg)`; the form writes the variables its fields are bound to. -/
  formUpdate : Form σ → Msg → Vars → TeaModel σ × Cmd × Vars

/-! ## The model -/

/-- The type `state` (lines 65-70). -/
inductive state where
  | statusNormal | stateDone
deriving DecidableEq

/-- The struct `Model` (lines 72-78); the renderer `lg` is represented by `Lib.Render`. -/
structure Model (σ : Type) where
  form : Form σ
  state : state
  styles : Styles
  width : Int

/-- The `Validate` function of the "All done?" confirmation (lines 119-124). -/
def confirmValidate (v : Bool) : Option String :=
  if !v then some "Welp, finish up then" else none

/-- The options of the commit-type select (lines 91-98). -/
def commitTypeOptions : List SelectOption :=
  [⟨"Feature", "feat"⟩, ⟨"Fixbug", "fix"⟩, ⟨"Documentation", "docs"⟩, ⟨"Style", "style"⟩,
   ⟨"Refactor", "refactor"⟩, ⟨"Performance", "perf"⟩, ⟨"Tests", "test"⟩,
   ⟨"Maintenance", "chore"⟩]

/-- The function `NewModel` (lines 80-133); `rt` is the run-time state of a fresh form. -/
def NewModel {σ : Type} (rt : σ) : Model σ :=
  { width := maxWidth
    state := .statusNormal
    styles := NewStyles
    form :=
      { groups :=
          [ ⟨[ .Select "Choose your type of commits" commitTypeOptions .commitType ]⟩,
            ⟨[ .Input "What's your scope?" .scope,
               .Input "What's your Work Item ID?" .workItemID,
               .Input "What's your commit title?" .title,
               .Text "What's your commit description? (Optional)" 400 .description,
               .Confirm "done" "All done?" confirmValidate "Yes" "Wait, no" ]⟩ ]
        width := 80
        showHelp := true
        showErrors := false
        State := .StateNormal
        rt := rt } }

/-- The function `min` (lines 139-144). -/
def min (x y : Int) : Int := if x > y then y else x

/-- The tail of `Update` (lines 159-171): the message goes to the form. -/
def Update.forward {σ : Type} (L : Lib σ) (m : Model σ) (msg : Msg) (g : Vars) :
    Model σ × Cmd × Vars :=
  match L.formUpdate m.form msg g with
  | (form, cmd, g1) =>
    let r : Model σ × List Cmd :=
      match form with
      | .huhForm f => ({ m with form := f }, [cmd])
      | .other => (m, [])
    let cmds : List Cmd :=
      if r.1.form.State = .StateCompleted then r.2 ++ [cmd] else r.2
    (r.1, .Batch cmds, g1)

/-- The method `Model.Update` (lines 146-172), with the package-level variables threaded. -/
def Update {σ : Type} (L : Lib σ) (m : Model σ) (msg : Msg) (g : Vars) :
    Model σ × Cmd × Vars :=
  match msg with
  | .WindowSizeMsg Width _ =>
    Update.forward L
      { m with width := subInt (min Width maxWidth) m.styles.Base.GetHorizontalFrameSize } msg g
  | .KeyMsg k =>
    if k = "ctrl+c" then (m, .Interrupt, g)
    else if k = "esc" ∨ k = "q" then (m, .Quit, g)
    else Update.forward L m msg g
  | .other _ => Update.forward L m msg g

/-- The constant `statusWidth` (line 214). -/
def statusWidth : Int := 40

/-- The local `commitMsg` of `View` (lines 180-183). -/
def commitMsg (g : Vars) : String :=
  if g.commitType ≠ "" then "Commit Type: " ++ g.commitType else ""
/-- The local `currentScope` of `View` (lines 198-199). -/
def currentScope (g : Vars) : String :=
  if g.scope ≠ "" then "Scope: " ++ g.scope else ""
/-- The local `scopeStr` of `View` (lines 198-200). -/
def scopeStr (g : Vars) : String :=
  if g.scope ≠ "" then "(" ++ g.scope ++ ")" else ""
/-- The local `currentWorkItemID` of `View` (lines 203-204). -/
def currentWorkItemID (g : Vars) : String :=
  if g.workItemID ≠ "" then "Work Item ID: " ++ g.workItemID else ""
/-- The local `workItemIDStr` of `View` (lines 203-205). -/
def workItemIDStr (g : Vars) : String :=
  if g.workItemID ≠ "" then "[" ++ g.workItemID ++ "]" else ""
/-- The local `currentTitle` of `View` (lines 207-209). -/
def currentTitle (g : Vars) : String :=
  if g.title ≠ "" then "Title: " ++ g.title else ""
/-- The local `currentDescription` of `View` (lines 210-212). -/
def currentDescription (g : Vars) : String :=
  if g.description ≠ "" then "Description(Optional): " ++ g.description else ""

/-- The string `View` returns when the form is completed (line 178). -/
def completedCommit (g : Vars) : String :=
  g.commitType ++ "(" ++ g.scope ++ ")[" ++ g.workItemID ++ "]: " ++ g.title ++ "\n\n"
    ++ g.description

/-- The first value of the local `status` of `View` (line 213): the compact summary. -/
def status (g : Vars) : String :=
  g.commitType ++ scopeStr g ++ workItemIDStr g ++ ": " ++ g.title ++ "\n\n" ++ g.description

/-- The local `form` of `View` (lines 184-185): the rendered form pane. -/
def formPane {σ : Type} (L : Lib σ) (m : Model σ) (g : Vars) : String :=
  L.Render (NewStyle.Margin [1, 0]) (TrimSuffix (L.formView m.form g) "\n\n")

/-- The local `statusMarginLeft` of `View` (line 215). -/
def statusMarginLeft {σ : Type} (L : Lib σ) (m : Model σ) (g : Vars) : Int :=
  subInt (subInt (subInt m.width statusWidth) (L.Width (formPane L m g)))
    m.styles.Status.GetMarginRight

/-- The style the status pane is rendered with (lines 216-219). -/
def statusStyle {σ : Type} (L : Lib σ) (m : Model σ) (g : Vars) : Style :=
  ((m.styles.Status.Height (L.Height (formPane L m g))).Width statusWidth).MarginLeft
    (statusMarginLeft L m g)

/-- The text of the status pane, the argument of `Render` (lines 220-226). -/
def statusText {σ : Type} (L : Lib σ) (m : Model σ) (g : Vars) : String :=
  L.Render m.styles.StatusHeader "Current Commit" ++ "\n" ++
    L.Render m.styles.Highlight (commitMsg g) ++ "\n" ++
    currentScope g ++ "\n" ++
    currentWorkItemID g ++ "\n" ++
    currentTitle g ++ "\n" ++
    currentDescription g ++ "\n\n" ++
    L.Render m.styles.StatusHeader "Completed Commit" ++ "\n" ++ status g

/-- The final value of the local `status` of `View` (lines 216-226): the status pane. -/
def statusPane {σ : Type} (L : Lib σ) (m : Model σ) (g : Vars) : String :=
  L.Render (statusStyle L m g) (statusText L m g)

/-- The method `Model.View` (lines 174-233), reading the package-level variables. -/
def View {σ : Type} (L : Lib σ) (m : Model σ) (g : Vars) : String :=
  match m.form.State with
  | .StateCompleted => completedCommit g
  | _ => L.Render m.styles.Base (L.JoinHorizontal (formPane L m g) (statusPane L m g))

/-! ## Reading the schema of a form -/

/-- The first field of the first group of a form. -/
def Form.firstField {σ : Type} (f : Form σ) : Option Field :=
  f.groups.head?.bind fun g => g.fields.head?

/-- The last field of the last group of a form. -/
def Form.lastField {σ : Type} (f : Form σ) : Option Field :=
  f.groups.getLast?.bind fun g => g.fields.getLast?

/-! ## Running `View` as a step of the program -/

/-- The state `View` runs in: the model it is called on (with the form its pointer
refers to) and the package-level variables. -/
structure Program (σ : Type) where
  model : Model σ
  vars : Vars

/-- The method `Model.View` (lines 174-233) statement by statement, as a step on the
program state.  `m.form.View()` runs on a pointer: `E` gives the form and the
package-level variables that call leaves behind, and every later statement reads the
state left by the earlier ones.  `commitMsg` (lines 180-183) is read before the form is
viewed, the other variables (lines 198-213) after it. -/
def runView {σ : Type} (L : Lib σ) (E : Form σ → Vars → Form σ × Vars) (p : Program σ) :
    String × Program σ :=
  match p.model.form.State with
  | .StateCompleted =>
    (p.vars.commitType ++ "(" ++ p.vars.scope ++ ")[" ++ p.vars.workItemID ++ "]: "
      ++ p.vars.title ++ "\n\n" ++ p.vars.description, p)
  | _ =>
    let commitMsg : String :=
      if p.vars.commitType ≠ "" then "Commit Type: " ++ p.vars.commitType else ""
    let v : String := TrimSuffix (L.formView p.model.form p.vars) "\n\n"
    let q : Program σ :=
      ⟨{ p.model with form := (E p.model.form p.vars).1 }, (E p.model.form p.vars).2⟩
    let form : String := L.Render (NewStyle.Margin [1, 0]) v
    let currentScope : String := if q.vars.scope ≠ "" then "Scope: " ++ q.vars.scope else ""
    let scopeStr : String := if q.vars.scope ≠ "" then "(" ++ q.vars.scope ++ ")" else ""
    let currentWorkItemID : String :=
      if q.vars.workItemID ≠ "" then "Work Item ID: " ++ q.vars.workItemID else ""
    let workItemIDStr : String :=
      if q.vars.workItemID ≠ "" then "[" ++ q.vars.workItemID ++ "]" else ""
    let currentTitle : String := if q.vars.title ≠ "" then "Title: " ++ q.vars.title else ""
    let currentDescription : String :=
      if q.vars.description ≠ "" then "Description(Optional): " ++ q.vars.description else ""
    let status : String :=
      q.vars.commitType ++ scopeStr ++ workItemIDStr ++ ": " ++ q.vars.title ++ "\n\n"
        ++ q.vars.description
    let statusMarginLeft : Int :=
      subInt (subInt (subInt p.model.width statusWidth) (L.Width form))
        p.model.styles.Status.GetMarginRight
    let status : String :=
      L.Render
        (((p.model.styles.Status.Height (L.Height form)).Width statusWidth).MarginLeft
          statusMarginLeft)
        (L.Render p.model.styles.StatusHeader "Current Commit" ++ "\n" ++
          L.Render p.model.styles.Highlight commitMsg ++ "\n" ++
          currentScope ++ "\n" ++
          currentWorkItemID ++ "\n" ++
          currentTitle ++ "\n" ++
          currentDescription ++ "\n\n" ++
          L.Render p.model.styles.StatusHeader "Completed Commit" ++ "\n" ++ status)
    (L.Render p.model.styles.Base (L.JoinHorizontal form status), q)

/-- A form whose `View()` leaves the form and the variables bound to it as they were. -/
def readOnlyView {σ : Type} (f : Form σ) (g : Vars) : Form σ × Vars := (f, g)

/-! ## Lines of a text -/

/-- The lines of a text, the pieces between line breaks (Go `strings.Split(s, "\n")`). -/
def splitLines : List Char → List (List Char)
  | [] => [[]]
  | c :: cs =>
    if c = '\n' then [] :: splitLines cs
    else
      match splitLines cs with
      | [] => [[c]]
      | l :: ls => (c :: l) :: ls

/-- Line `n` of a text, counted from 1; empty when the text has fewer lines. -/
def lineAt (s : String) (n : Nat) : String :=
  String.mk ((splitLines s.data).getD (n - 1) [])

/-- The text up to its first line break. -/
def firstLine (s : String) : String :=
  String.mk (s.data.takeWhile fun c => c ≠ '\n')

/-- A text without a line break. -/
def SingleLine (s : String) : Prop := '\n' ∉ s.data

/-- The left margin the status pane is rendered with: what the style of lines 216-219
stores after `MarginLeft(statusMarginLeft)`. -/
def appliedMarginLeft {σ : Type} (L : Lib σ) (m : Model σ) (g : Vars) : Int :=
  (statusStyle L m g).GetMarginLeft

/-- The model and the package-level variables after `Update` handled a resize to the
width `w` and height `h`. -/
def afterResize {σ : Type} (L : Lib σ) (m : Model σ) (g : Vars) (w h : Int) : Program σ :=
  ⟨(Update L m (.WindowSizeMsg w h) g).1, (Update L m (.WindowSizeMsg w h) g).2.2⟩

/-- The package-level variables at program start: all empty. -/
def emptyVars : Vars := ⟨"", "", "", "", ""⟩

/-! ## A terminal without colours or layout, for concrete evaluation -/

/-- A library instance whose rendering leaves the text as it is, whose form is blank and
as wide as `w`, and whose form accepts every message without a change. -/
def plainLib (w : Int) : Lib Unit :=
  { Render := fun _ str => str
    Width := fun _ => w
    Height := fun _ => 1
    JoinHorizontal := fun a b => a ++ b
    formView := fun _ _ => ""
    formUpdate := fun f _ g => (.huhForm f, .other 0, g) }

/-- The model of `NewModel` once its form has reached `StateCompleted`. -/
def completedModel : Model Unit :=
  { NewModel () with form := { (NewModel ()).form with State := .StateCompleted } }

/-! ## Lemmas on Go integers, the styles and the lines of a text -/

theorem wrapInt_of_isInt {x : Int} (h : IsInt x) : wrapInt x = x := by
  unfold IsInt at h
  unfold wrapInt
  omega

theorem wrapInt_sub_left (a b : Int) : wrapInt (wrapInt a - b) = wrapInt (a - b) := by
  unfold wrapInt
  omega

theorem min_eq_min (x y : Int) : min x y = Min.min x y := by
  unfold min
  split_ifs <;> omega

theorem newStyles_base_frame : NewStyles.Base.GetHorizontalFrameSize = 5 := by decide

theorem newStyles_status_marginRight : NewStyles.Status.GetMarginRight = 0 := by decide

theorem forward_width {σ : Type} (L : Lib σ) (m : Model σ) (msg : Msg) (g : Vars) :
    (Update.forward L m msg g).1.width = m.width ∧
    (Update.forward L m msg g).1.styles = m.styles := by
  unfold Update.forward
  rcases L.formUpdate m.form msg g with ⟨form, cmd, g1⟩
  cases form <;> exact ⟨rfl, rfl⟩

theorem afterResize_width {σ : Type} (L : Lib σ) (m : Model σ) (g : Vars) (w h : Int) :
    (afterResize L m g w h).model.width
      = wrapInt (Min.min w 120 - m.styles.Base.GetHorizontalFrameSize) ∧
    (afterResize L m g w h).model.styles = m.styles := by
  have hf := forward_width L
    { m with width := subInt (min w maxWidth) m.styles.Base.GetHorizontalFrameSize }
    (.WindowSizeMsg w h) g
  simp only [afterResize, Update]
  refine ⟨?_, hf.2⟩
  rw [hf.1]
  simp only [subInt, min_eq_min, maxWidth]

theorem statusMarginLeft_afterResize {σ : Type} (L : Lib σ) (m : Model σ) (g : Vars)
    (w h : Int) :
    statusMarginLeft L (afterResize L m g w h).model (afterResize L m g w h).vars
      = wrapInt (Min.min w 120 - m.styles.Base.GetHorizontalFrameSize - 40
          - L.Width (formPane L (afterResize L m g w h).model (afterResize L m g w h).vars)
          - m.styles.Status.GetMarginRight) := by
  have hw := afterResize_width L m g w h
  simp only [statusMarginLeft, hw.1, hw.2, subInt, statusWidth, wrapInt_sub_left]

theorem appliedMarginLeft_eq {σ : Type} (L : Lib σ) (m : Model σ) (g : Vars) :
    appliedMarginLeft L m g = max 0 (statusMarginLeft L m g) := rfl

theorem splitLines_append_break (a r : List Char) (ha : '\n' ∉ a) :
    splitLines (a ++ '\n' :: r) = a :: splitLines r := by
  induction a with
  | nil => simp [splitLines]
  | cons c cs ih =>
    have hc : c ≠ '\n' := fun h => ha (by simp [h])
    have hcs : '\n' ∉ cs := fun h => ha (by simp [h])
    have ih2 := ih hcs
    simp only [List.cons_append, splitLines, if_neg hc]
    show (match splitLines (cs ++ '\n' :: r) with
      | [] => [[c]]
      | l :: ls => (c :: l) :: ls) = (c :: cs) :: splitLines r
    rw [ih2]

theorem splitLines_head (x r : List Char) :
    (splitLines (x ++ '\n' :: r)).getD 0 [] = x.takeWhile fun c => c ≠ '\n' := by
  induction x with
  | nil => simp [splitLines]
  | cons c cs ih =>
    by_cases hc : c = '\n'
    · simp [splitLines, hc]
    · simp only [List.cons_append, splitLines, if_neg hc]
      rw [List.takeWhile_cons_of_pos (by simpa using hc)]
      show (match splitLines (cs ++ '\n' :: r) with
        | [] => [[c]]
        | l :: ls => (c :: l) :: ls).getD 0 [] = c :: cs.takeWhile fun c => c ≠ '\n'
      cases hsp : splitLines (cs ++ '\n' :: r) with
      | nil => rw [hsp] at ih; simpa using ih
      | cons l ls => rw [hsp] at ih; simpa using ih

theorem lineAt_eq (t l : String) (n : Nat)
    (h : (splitLines t.data).getD (n - 1) [] = l.data) : lineAt t n = l := by
  unfold lineAt
  rw [h]

theorem singleLine_label (label v : String) (hl : SingleLine label) (hv : SingleLine v) :
    SingleLine (if v ≠ "" then label ++ v else "") := by
  unfold SingleLine at *
  split_ifs
  · simp only [String.data_append, List.mem_append, not_or]
    exact ⟨hl, hv⟩
  · simp

/-! ## Theorems -/

/-- C1: in the completed state `View` returns
`type(scope)[workItemID]: title`, a blank line, then the description, for all five
strings; for feat / api / 1234 / add retries / no description this is
`feat(api)[1234]: add retries` followed by two line breaks. -/
theorem view_completed {σ : Type} (L : Lib σ) (m : Model σ)
    (hm : m.form.State = .StateCompleted) :
    (∀ ct sc wi ti de : String,
      View L m ⟨ct, sc, wi, ti, de⟩
        = ct ++ "(" ++ sc ++ ")[" ++ wi ++ "]: " ++ ti ++ "\n\n" ++ de) ∧
    View L m ⟨"feat", "api", "1234", "add retries", ""⟩ = "feat(api)[1234]: add retries\n\n" := by
  constructor
  · intro ct sc wi ti de
    simp only [View, hm, completedCommit]
  · simp only [View, hm, completedCommit]
    decide

/-- Witness of C1 on the completed model of `NewModel`. -/
theorem view_completed_witness :
    View (plainLib 0) completedModel ⟨"feat", "api", "1234", "add retries", ""⟩
      = "feat(api)[1234]: add retries\n\n" :=
  (view_completed (plainLib 0) completedModel rfl).2

/-- C6: the `Validate` function of the final "All done?" confirmation of `NewModel`
returns an error exactly when its argument is false, and no error exactly when it is
true. -/
theorem confirm_validate_iff {σ : Type} (rt : σ) :
    ∃ validate : Bool → Option String,
      (NewModel rt).form.lastField
        = some (.Confirm "done" "All done?" validate "Yes" "Wait, no") ∧
      ∀ v : Bool, ((validate v).isSome ↔ v = false) ∧ (validate v = none ↔ v = true) := by
  refine ⟨confirmValidate, rfl, ?_⟩
  intro v
  cases v <;> simp [confirmValidate]

/-- C7: the commit-type select of `NewModel` offers the values feat, fix, docs, style,
refactor, perf, test, chore, in that order and without a duplicate, and its option
labelled "Feature" has the value feat. -/
theorem commit_type_options {σ : Type} (rt : σ) :
    ∃ opts : List SelectOption,
      (NewModel rt).form.firstField
        = some (.Select "Choose your type of commits" opts .commitType) ∧
      opts.map (fun o => o.Value)
        = ["feat", "fix", "docs", "style", "refactor", "perf", "test", "chore"] ∧
      (opts.map (fun o => o.Value)).Nodup ∧
      (∃ o ∈ opts, o.Key = "Feature") ∧
      ∀ o ∈ opts, o.Key = "Feature" → o.Value = "feat" := by
  refine ⟨commitTypeOptions, rfl, by decide, by decide, by decide, by decide⟩

/-- C5: on ctrl+c `Update` returns the model as it was with `tea.Interrupt`, on esc and
on q with `tea.Quit`, the package-level variables untouched and the form's `Update` not
consulted; every other key goes to the form's `Update`, whose form, command and writes
the result carries. -/
theorem update_key_dispatch {σ : Type} (L : Lib σ) (m : Model σ) (g : Vars) :
    Update L m (.KeyMsg "ctrl+c") g = (m, .Interrupt, g) ∧
    Update L m (.KeyMsg "esc") g = (m, .Quit, g) ∧
    Update L m (.KeyMsg "q") g = (m, .Quit, g) ∧
    ∀ (k : String) (f : Form σ) (c : Cmd) (g1 : Vars),
      k ≠ "ctrl+c" → k ≠ "esc" → k ≠ "q" →
      L.formUpdate m.form (.KeyMsg k) g = (.huhForm f, c, g1) →
      Update L m (.KeyMsg k) g
        = ({ m with form := f },
           .Batch (if f.State = .StateCompleted then [c, c] else [c]), g1) := by
  refine ⟨by simp [Update], by simp [Update], by simp [Update], ?_⟩
  intro k f c g1 h1 h2 h3 hf
  simp only [Update, h1, h2, h3, if_false, or_self, Update.forward, hf]
  by_cases hs : f.State = .StateCompleted <;> simp [hs]

/-- Witness of C5: the key "a" on the model of `NewModel`. -/
theorem update_key_dispatch_witness :
    Update (plainLib 0) (NewModel ()) (.KeyMsg "a") ⟨"", "", "", "", ""⟩
      = ({ NewModel () with form := (NewModel ()).form },
         .Batch (if (NewModel ()).form.State = .StateCompleted then [.other 0, .other 0]
                 else [.other 0]),
         ⟨"", "", "", "", ""⟩) :=
  (update_key_dispatch (plainLib 0) (NewModel ()) ⟨"", "", "", "", ""⟩).2.2.2
    "a" (NewModel ()).form (.other 0) ⟨"", "", "", "", ""⟩
    (by decide) (by decide) (by decide) rfl

/-- C9: `View` writes nothing itself: the state a call leaves is the state it found when
the form is completed (a second call then returns the same string), and otherwise the
state its one call of the form's `View()` leaves.  With a form whose `View()` leaves the form and the variables as they were, a call
of `View` leaves the model and the five package-level variables unchanged, returns the
string `View` computes from them, and returns the same string when called again with no
`Update` in between. -/
theorem view_idempotent {σ : Type} (L : Lib σ) (E : Form σ → Vars → Form σ × Vars)
    (p : Program σ) :
    (runView L E p).2
      = (if p.model.form.State = .StateCompleted then p
         else ⟨{ p.model with form := (E p.model.form p.vars).1 },
               (E p.model.form p.vars).2⟩) ∧
    (p.model.form.State = .StateCompleted →
      (runView L E p).2 = p ∧ (runView L E (runView L E p).2).1 = (runView L E p).1) ∧
    ((∀ f g, E f g = (f, g)) →
      (runView L E p).2.model.form = p.model.form ∧
      (runView L E p).2.model.state = p.model.state ∧
      (runView L E p).2.model.styles = p.model.styles ∧
      (runView L E p).2.model.width = p.model.width ∧
      (runView L E p).2.vars.commitType = p.vars.commitType ∧
      (runView L E p).2.vars.scope = p.vars.scope ∧
      (runView L E p).2.vars.workItemID = p.vars.workItemID ∧
      (runView L E p).2.vars.title = p.vars.title ∧
      (runView L E p).2.vars.description = p.vars.description ∧
      (runView L E p).1 = View L p.model p.vars ∧
      (runView L E (runView L E p).2).1 = (runView L E p).1 ∧
      (runView L E (runView L E p).2).2 = (runView L E p).2) := by
  have hpost : (runView L E p).2
      = (if p.model.form.State = .StateCompleted then p
         else ⟨{ p.model with form := (E p.model.form p.vars).1 },
               (E p.model.form p.vars).2⟩) := by
    cases hst : p.model.form.State <;> simp [runView, hst]
  refine ⟨hpost, ?_, ?_⟩
  · intro hst
    have hsame : (runView L E p).2 = p := by rw [hpost, if_pos hst]
    exact ⟨hsame, by rw [hsame]⟩
  intro hE
  have hsame : (runView L E p).2 = p := by
    rw [hpost, hE]
    split_ifs <;> rfl
  have hstr : (runView L E p).1 = View L p.model p.vars := by
    cases hst : p.model.form.State <;>
      simp only [runView, View, hst, hE, completedCommit, statusPane, statusStyle,
        statusText, statusMarginLeft, formPane, commitMsg, currentScope, scopeStr,
        currentWorkItemID, workItemIDStr, currentTitle, currentDescription, status]
  refine ⟨?_, ?_, ?_, ?_, ?_, ?_, ?_, ?_, ?_, hstr, ?_, ?_⟩
  all_goals first
    | (rw [hsame]; done)
    | (rw [hsame]; exact hsame)

/-- Witness of C9: the model of `NewModel` with a form whose `View()` changes nothing. -/
theorem view_idempotent_witness :
    (runView (plainLib 0) readOnlyView ⟨NewModel (), emptyVars⟩).2.vars.commitType = "" ∧
    (runView (plainLib 0) readOnlyView ⟨NewModel (), emptyVars⟩).1
      = View (plainLib 0) (NewModel ()) emptyVars :=
  ⟨((view_idempotent (plainLib 0) readOnlyView ⟨NewModel (), emptyVars⟩).2.2
      (fun _ _ => rfl)).2.2.2.2.1,
   ((view_idempotent (plainLib 0) readOnlyView ⟨NewModel (), emptyVars⟩).2.2
      (fun _ _ => rfl)).2.2.2.2.2.2.2.2.2.1⟩

/-- C10: in the active state `View` shows, as the last piece of the status pane under
the "Completed Commit" header, the compact summary; that summary equals the string `View`
returns in the completed state exactly when scope and work-item id are both non-empty;
with an empty scope the summary has no parentheses of its own, with an empty work-item id
no brackets, and the completed output has both in every case. -/
theorem summary_eq_completed_iff {σ : Type} (L : Lib σ) (ma mc : Model σ)
    (ha : ma.form.State ≠ .StateCompleted) (hc : mc.form.State = .StateCompleted)
    (ct sc wi ti de : String) :
    View L ma ⟨ct, sc, wi, ti, de⟩
      = L.Render ma.styles.Base
          (L.JoinHorizontal (formPane L ma ⟨ct, sc, wi, ti, de⟩)
            (L.Render (statusStyle L ma ⟨ct, sc, wi, ti, de⟩)
              (L.Render ma.styles.StatusHeader "Current Commit" ++ "\n" ++
                L.Render ma.styles.Highlight (commitMsg ⟨ct, sc, wi, ti, de⟩) ++ "\n" ++
                currentScope ⟨ct, sc, wi, ti, de⟩ ++ "\n" ++
                currentWorkItemID ⟨ct, sc, wi, ti, de⟩ ++ "\n" ++
                currentTitle ⟨ct, sc, wi, ti, de⟩ ++ "\n" ++
                currentDescription ⟨ct, sc, wi, ti, de⟩ ++ "\n\n" ++
                L.Render ma.styles.StatusHeader "Completed Commit" ++ "\n" ++
                status ⟨ct, sc, wi, ti, de⟩))) ∧
    (status ⟨ct, sc, wi, ti, de⟩ = View L mc ⟨ct, sc, wi, ti, de⟩ ↔ sc ≠ "" ∧ wi ≠ "") ∧
    (sc = "" → status ⟨ct, sc, wi, ti, de⟩
      = ct ++ (if wi ≠ "" then "[" ++ wi ++ "]" else "") ++ ": " ++ ti ++ "\n\n" ++ de) ∧
    (wi = "" → status ⟨ct, sc, wi, ti, de⟩
      = ct ++ (if sc ≠ "" then "(" ++ sc ++ ")" else "") ++ ": " ++ ti ++ "\n\n" ++ de) ∧
    View L mc ⟨ct, sc, wi, ti, de⟩
      = ct ++ ("(" ++ sc ++ ")") ++ ("[" ++ wi ++ "]") ++ ": " ++ ti ++ "\n\n" ++ de := by
  have hact : View L ma ⟨ct, sc, wi, ti, de⟩
      = L.Render ma.styles.Base
          (L.JoinHorizontal (formPane L ma ⟨ct, sc, wi, ti, de⟩)
            (L.Render (statusStyle L ma ⟨ct, sc, wi, ti, de⟩)
              (statusText L ma ⟨ct, sc, wi, ti, de⟩))) := by
    unfold View statusPane
    cases hst : ma.form.State with
    | StateCompleted => exact absurd hst ha
    | StateNormal => rfl
    | StateAborted => rfl
  have hv : View L mc ⟨ct, sc, wi, ti, de⟩ = completedCommit ⟨ct, sc, wi, ti, de⟩ := by
    simp only [View, hc]
  have hj : ∀ x : String, ")" ++ ("[" ++ x) = ")[" ++ x := fun x => by
    rw [← String.append_assoc]; rfl
  refine ⟨hact, ?_, ?_, ?_, ?_⟩
  · rw [hv]
    constructor
    · intro h
      have hl := congrArg String.length h
      have e0 : "".length = 0 := rfl
      have e1 : "(".length = 1 := rfl
      have e2 : ")".length = 1 := rfl
      have e3 : "[".length = 1 := rfl
      have e4 : "]".length = 1 := rfl
      have e5 : ")[".length = 2 := rfl
      have e6 : "]: ".length = 3 := rfl
      have e7 : ": ".length = 2 := rfl
      simp only [status, completedCommit, scopeStr, workItemIDStr] at hl
      by_cases h1 : sc = ""
      · exfalso
        rw [if_neg (not_not.mpr h1)] at hl
        split_ifs at hl <;>
          simp only [String.length_append, e0, e1, e2, e3, e4, e5, e6, e7] at hl <;> omega
      · by_cases h2 : wi = ""
        · exfalso
          rw [if_pos h1, if_neg (not_not.mpr h2)] at hl
          simp only [String.length_append, e0, e1, e2, e3, e4, e5, e6, e7] at hl
          omega
        · exact ⟨h1, h2⟩
    · rintro ⟨h1, h2⟩
      simp [status, completedCommit, scopeStr, workItemIDStr, h1, h2, String.append_assoc, hj]
  · intro h
    simp [status, scopeStr, workItemIDStr, h, String.append_assoc]
  · intro h
    simp [status, scopeStr, workItemIDStr, h, String.append_assoc]
  · rw [hv]
    simp [completedCommit, String.append_assoc, hj]

/-- Witness of C10: the model of `NewModel` as the active one, and its completed form. -/
theorem summary_eq_completed_iff_witness :
    status ⟨"feat", "api", "1234", "add retries", ""⟩
      = View (plainLib 0) completedModel ⟨"feat", "api", "1234", "add retries", ""⟩ :=
  (summary_eq_completed_iff (plainLib 0) (NewModel ()) completedModel (by decide) rfl
    "feat" "api" "1234" "add retries" "").2.1.mpr ⟨by decide, by decide⟩

/-- C2, as stated, fails: after a resize to 200 columns with a form 60 columns wide the
margin `View` computes is 15, while min(200, 120) - 40 - 60 - 0 is 20. -/
theorem margin_formula_counterexample :
    statusMarginLeft (plainLib 60) (afterResize (plainLib 60) (NewModel ()) emptyVars 200 50).model
        (afterResize (plainLib 60) (NewModel ()) emptyVars 200 50).vars = 15 ∧
    Min.min (200 : Int) 120 - 40 - 60 - (NewModel ()).styles.Status.GetMarginRight = 20 := by
  decide

/-- C2, amended: after a resize to `w` the margin `View` computes is, in Go `int`
arithmetic, min(w, 120) less the horizontal frame size of the Base style, less 40, less
the rendered form width, less the right margin of the Status style; with the styles of
`NewStyles` the frame size is 5 and the right margin 0, and the value is exactly
min(w, 120) - 5 - 40 - f - 0 whenever that is a Go `int`. -/
theorem margin_after_resize {σ : Type} (L : Lib σ) (m : Model σ) (g : Vars) (w h : Int) :
    statusMarginLeft L (afterResize L m g w h).model (afterResize L m g w h).vars
      = wrapInt (Min.min w 120 - m.styles.Base.GetHorizontalFrameSize - 40
          - L.Width (formPane L (afterResize L m g w h).model (afterResize L m g w h).vars)
          - m.styles.Status.GetMarginRight) ∧
    (m.styles = NewStyles →
      m.styles.Base.GetHorizontalFrameSize = 5 ∧ m.styles.Status.GetMarginRight = 0 ∧
      ∀ f : Int,
        L.Width (formPane L (afterResize L m g w h).model (afterResize L m g w h).vars) = f →
        IsInt (Min.min w 120 - 5 - 40 - f - 0) →
        statusMarginLeft L (afterResize L m g w h).model (afterResize L m g w h).vars
          = Min.min w 120 - 5 - 40 - f - 0) := by
  refine ⟨statusMarginLeft_afterResize L m g w h, ?_⟩
  intro hs
  refine ⟨by rw [hs]; exact newStyles_base_frame, by rw [hs]; exact newStyles_status_marginRight, ?_⟩
  intro f hf hi
  rw [statusMarginLeft_afterResize, hf, hs, newStyles_base_frame, newStyles_status_marginRight]
  exact wrapInt_of_isInt hi

/-- Witness of C2, amended: 200 columns, a form 60 columns wide, margin 15. -/
theorem margin_after_resize_witness :
    statusMarginLeft (plainLib 60) (afterResize (plainLib 60) (NewModel ()) emptyVars 200 50).model
        (afterResize (plainLib 60) (NewModel ()) emptyVars 200 50).vars
      = Min.min 200 120 - 5 - 40 - 60 - 0 :=
  ((margin_after_resize (plainLib 60) (NewModel ()) emptyVars 200 50).2 rfl).2.2 60 rfl
    (by decide)

/-- C3, as stated, fails: after a resize to 10 columns with a form 80 columns wide
`View` computes the margin -115, the margin applied to the status pane is 0, and
80 + 40 + 0 exceeds min(10, 120). -/
theorem layout_bound_counterexample :
    (0 : Int) ≤ 10 ∧ (0 : Int) ≤ 80 ∧
    statusMarginLeft (plainLib 80) (afterResize (plainLib 80) (NewModel ()) emptyVars 10 24).model
        (afterResize (plainLib 80) (NewModel ()) emptyVars 10 24).vars = -115 ∧
    appliedMarginLeft (plainLib 80) (afterResize (plainLib 80) (NewModel ()) emptyVars 10 24).model
        (afterResize (plainLib 80) (NewModel ()) emptyVars 10 24).vars = 0 ∧
    ¬ (80 + 40 +
        appliedMarginLeft (plainLib 80) (afterResize (plainLib 80) (NewModel ()) emptyVars 10 24).model
          (afterResize (plainLib 80) (NewModel ()) emptyVars 10 24).vars
        ≤ Min.min (10 : Int) 120) := by
  decide

/-- C3, amended: after a resize to `w`, with a rendered form of width `f ≥ 0`, the margin
applied to the status pane is never negative, and f + 40 + that margin is at most
min(w, 120) exactly when f + 40 is, that is, when the form and the 40-column status pane
fit in the capped width; with the margin `View` computes, which may be negative, the sum
f + 40 + statusMarginLeft is min(w, 120) - 5 whenever that margin is a Go `int`. -/
theorem layout_bound_iff {σ : Type} (L : Lib σ) (m : Model σ) (g : Vars) (w h f : Int)
    (hs : m.styles = NewStyles)
    (hw : L.Width (formPane L (afterResize L m g w h).model (afterResize L m g w h).vars) = f)
    (hf : 0 ≤ f) :
    0 ≤ appliedMarginLeft L (afterResize L m g w h).model (afterResize L m g w h).vars ∧
    (f + 40 + appliedMarginLeft L (afterResize L m g w h).model (afterResize L m g w h).vars
        ≤ Min.min w 120
      ↔ f + 40 ≤ Min.min w 120) ∧
    (IsInt (Min.min w 120 - 5 - 40 - f) →
      f + 40 + statusMarginLeft L (afterResize L m g w h).model (afterResize L m g w h).vars
        = Min.min w 120 - 5) := by
  rw [appliedMarginLeft_eq, statusMarginLeft_afterResize, hw, hs, newStyles_base_frame,
    newStyles_status_marginRight]
  unfold wrapInt IsInt
  omega

/-- Witness of C3, amended: 100 columns and a form 50 columns wide fit. -/
theorem layout_bound_iff_witness :
    50 + 40 +
      appliedMarginLeft (plainLib 50) (afterResize (plainLib 50) (NewModel ()) emptyVars 100 24).model
        (afterResize (plainLib 50) (NewModel ()) emptyVars 100 24).vars
      ≤ Min.min (100 : Int) 120 :=
  (layout_bound_iff (plainLib 50) (NewModel ()) emptyVars 100 24 50 rfl rfl
    (by decide)).2.1.mpr (by decide)

/-- C4: after a resize to `w`, the left margin the status pane is given, the
`statusMarginLeft` of line 215 as stored by `MarginLeft` on line 219, is never negative,
for every `w` and every rendered form width; and it is 0 whenever the two panes do not
fit: whenever min(w, 120) - 5 - 40 - f, the value line 215 computes, is negative (and a Go
`int`), and so whenever min(w, 120) - 40 - f - (the right margin of the Status style) is
negative, for 0 ≤ w and 0 ≤ f ≤ 2^62. -/
theorem margin_clamp {σ : Type} (L : Lib σ) (m : Model σ) (g : Vars) (w h : Int) :
    0 ≤ appliedMarginLeft L (afterResize L m g w h).model (afterResize L m g w h).vars ∧
    appliedMarginLeft L (afterResize L m g w h).model (afterResize L m g w h).vars
      = max 0 (statusMarginLeft L (afterResize L m g w h).model (afterResize L m g w h).vars) ∧
    (m.styles = NewStyles →
      ∀ f : Int,
        L.Width (formPane L (afterResize L m g w h).model (afterResize L m g w h).vars) = f →
        (IsInt (Min.min w 120 - 5 - 40 - f) → Min.min w 120 - 5 - 40 - f < 0 →
          appliedMarginLeft L (afterResize L m g w h).model (afterResize L m g w h).vars = 0) ∧
        (0 ≤ w → 0 ≤ f → f ≤ 4611686018427387904 →
          Min.min w 120 - 40 - f - m.styles.Status.GetMarginRight < 0 →
          appliedMarginLeft L (afterResize L m g w h).model (afterResize L m g w h).vars = 0)) := by
  refine ⟨?_, rfl, ?_⟩
  · rw [appliedMarginLeft_eq]
    omega
  · intro hs f hw
    rw [appliedMarginLeft_eq, statusMarginLeft_afterResize, hw, hs, newStyles_base_frame,
      newStyles_status_marginRight]
    unfold wrapInt IsInt
    omega

/-- Witness of C4: 10 columns and a form 80 columns wide do not fit, the margin is 0. -/
theorem margin_clamp_witness :
    appliedMarginLeft (plainLib 80) (afterResize (plainLib 80) (NewModel ()) emptyVars 10 24).model
        (afterResize (plainLib 80) (NewModel ()) emptyVars 10 24).vars = 0 :=
  ((margin_clamp (plainLib 80) (NewModel ()) emptyVars 10 24).2.2 rfl 80 rfl).2
    (by decide) (by decide) (by decide) (by decide)

/-- C8, as stated, fails: with the description "why", a line break, "how", on a terminal
that leaves styled text as it is, line 6 of the status text is the label followed by
"why" only, not by the value. -/
theorem status_lines_counterexample :
    (NewModel ()).form.State ≠ .StateCompleted ∧
    lineAt (statusText (plainLib 0) (NewModel ()) ⟨"feat", "api", "1234", "add retries", "why\nhow"⟩) 6
      = "Description(Optional): why" ∧
    lineAt (statusText (plainLib 0) (NewModel ()) ⟨"feat", "api", "1234", "add retries", "why\nhow"⟩) 6
      ≠ "Description(Optional): " ++ "why\nhow" := by
  decide

/-- C8, amended: in the active state `View` renders the status text in the status pane.
When the two styled pieces (the "Current Commit" header and the commit-type line) and the
scope, work-item id and title are free of line breaks, line 1 of that text is the styled
header, line 2 the Highlight rendering of the commit-type line, lines 3, 4 and 5 the
scope, work-item and title lines, each the empty string for an empty value and the label
followed by the value otherwise, and line 6 is empty for an empty description and
otherwise the label followed by the first line of the description (by the whole
description when it has no line break). -/
theorem status_lines {σ : Type} (L : Lib σ) (m : Model σ) (g : Vars)
    (hm : m.form.State ≠ .StateCompleted)
    (hh : SingleLine (L.Render m.styles.StatusHeader "Current Commit"))
    (hc : SingleLine (L.Render m.styles.Highlight (commitMsg g)))
    (hsc : SingleLine g.scope) (hwi : SingleLine g.workItemID) (hti : SingleLine g.title) :
    View L m g
      = L.Render m.styles.Base
          (L.JoinHorizontal (formPane L m g) (L.Render (statusStyle L m g) (statusText L m g))) ∧
    lineAt (statusText L m g) 1 = L.Render m.styles.StatusHeader "Current Commit" ∧
    lineAt (statusText L m g) 2
      = L.Render m.styles.Highlight
          (if g.commitType = "" then "" else "Commit Type: " ++ g.commitType) ∧
    lineAt (statusText L m g) 3 = (if g.scope = "" then "" else "Scope: " ++ g.scope) ∧
    lineAt (statusText L m g) 4
      = (if g.workItemID = "" then "" else "Work Item ID: " ++ g.workItemID) ∧
    lineAt (statusText L m g) 5 = (if g.title = "" then "" else "Title: " ++ g.title) ∧
    lineAt (statusText L m g) 6
      = (if g.description = "" then ""
         else "Description(Optional): " ++ firstLine g.description) ∧
    (SingleLine g.description →
      lineAt (statusText L m g) 6
        = (if g.description = "" then "" else "Description(Optional): " ++ g.description)) := by
  have hview : View L m g
      = L.Render m.styles.Base
          (L.JoinHorizontal (formPane L m g) (L.Render (statusStyle L m g) (statusText L m g))) := by
    unfold View statusPane
    cases hst : m.form.State with
    | StateCompleted => exact absurd hst hm
    | StateNormal => rfl
    | StateAborted => rfl
  have e1 : ("\n" : String).data = ['\n'] := rfl
  have e2 : ("\n\n" : String).data = ['\n', '\n'] := rfl
  have hS : SingleLine (currentScope g) :=
    singleLine_label "Scope: " g.scope (by unfold SingleLine; decide) hsc
  have hW : SingleLine (currentWorkItemID g) :=
    singleLine_label "Work Item ID: " g.workItemID (by unfold SingleLine; decide) hwi
  have hT : SingleLine (currentTitle g) :=
    singleLine_label "Title: " g.title (by unfold SingleLine; decide) hti
  have hsplit : splitLines (statusText L m g).data
      = (L.Render m.styles.StatusHeader "Current Commit").data ::
        (L.Render m.styles.Highlight (commitMsg g)).data ::
        (currentScope g).data :: (currentWorkItemID g).data :: (currentTitle g).data ::
        splitLines ((currentDescription g).data ++ '\n' :: '\n' ::
          ((L.Render m.styles.StatusHeader "Completed Commit").data ++ '\n' ::
            (status g).data)) := by
    simp only [statusText, String.data_append, List.append_assoc, e1, e2, List.cons_append,
      List.nil_append]
    rw [splitLines_append_break _ _ hh, splitLines_append_break _ _ hc,
      splitLines_append_break _ _ hS, splitLines_append_break _ _ hW,
      splitLines_append_break _ _ hT]
  have h6 : lineAt (statusText L m g) 6
      = (if g.description = "" then ""
         else "Description(Optional): " ++ firstLine g.description) := by
    apply lineAt_eq
    rw [hsplit]
    simp only [Nat.add_one_sub_one, List.getD_cons_succ]
    rw [splitLines_head]
    unfold currentDescription
    by_cases hd : g.description = ""
    · simp [hd]
    · simp only [hd, ne_eq, not_false_eq_true, if_true, if_false, String.data_append, firstLine]
      rw [List.takeWhile_append_of_pos]
      decide
  refine ⟨hview, ?_, ?_, ?_, ?_, ?_, h6, ?_⟩
  · apply lineAt_eq
    rw [hsplit]
    rfl
  · apply lineAt_eq
    rw [hsplit]
    simp [commitMsg]
  · apply lineAt_eq
    rw [hsplit]
    by_cases hv : g.scope = "" <;> simp [currentScope, hv]
  · apply lineAt_eq
    rw [hsplit]
    by_cases hv : g.workItemID = "" <;> simp [currentWorkItemID, hv]
  · apply lineAt_eq
    rw [hsplit]
    by_cases hv : g.title = "" <;> simp [currentTitle, hv]
  · intro hd
    rw [h6]
    have hfl : firstLine g.description = g.description := by
      unfold firstLine
      apply String.ext
      show g.description.data.takeWhile (fun c => c ≠ '\n') = g.description.data
      rw [List.takeWhile_eq_self_iff]
      intro c hcm
      have : c ≠ '\n' := fun h => hd (h ▸ hcm)
      simpa using this
    rw [hfl]

/-- Witness of C8, amended: the draft feat / api / 1234 / add retries on the model of
`NewModel`. -/
theorem status_lines_witness :
    lineAt (statusText (plainLib 0) (NewModel ()) ⟨"feat", "api", "1234", "add retries", ""⟩) 3
      = (if "api" = "" then "" else "Scope: " ++ "api") :=
  (status_lines (plainLib 0) (NewModel ()) ⟨"feat", "api", "1234", "add retries", ""⟩
    (by decide) (by unfold SingleLine; decide) (by unfold SingleLine; decide)
    (by unfold SingleLine; decide) (by unfold SingleLine; decide)
    (by unfold SingleLine; decide)).2.2.2.1

end GoCommit
